import Mathlib

/-!
Verification of the sketch-canvas drawing/undo engine of the playful-environment
designer: a shallow embedding of its color utilities, canvas state store,
pointer-to-stroke mapper, compositing/mask builder and preview downscaler,
with theorems about the documented behaviour.

Modelling conventions:
- JS numbers that hold pixel channels are naturals (0..255); fractional
  coordinates, opacities and scale factors are rationals.
- A canvas raster is a row-major list of RGBA pixels together with its
  dimensions; `toDataURL("image/png")` snapshots are modelled as the raster
  value itself, PNG being lossless.
- Fallible host operations (getImageData under cross-origin restrictions,
  image decode) are passed in as `Except`/`Option` values.
-/

namespace PlayfulEnv

/-- The digit character produced by JS `Number.prototype.toString(16)` for
one digit value (lowercase hex). -/
def hexDigitChar (n : Nat) : Char :=
  if n < 10 then Char.ofNat ('0'.toNat + n)
  else if n < 16 then Char.ofNat ('a'.toNat + (n - 10))
  else '0'

/-- The numeric value of a hex digit accepted by JS `parseInt(_, 16)`
(both cases accepted); `none` for a non-digit. -/
def hexDigitVal (c : Char) : Option Nat :=
  if '0' ≤ c ∧ c ≤ '9' then some (c.toNat - '0'.toNat)
  else if 'a' ≤ c ∧ c ≤ 'f' then some (c.toNat - 'a'.toNat + 10)
  else if 'A' ≤ c ∧ c ≤ 'F' then some (c.toNat - 'A'.toNat + 10)
  else none

/-- Accumulator loop of `parseInt(_, 16)`: consume the maximal prefix of hex
digits. -/
def parseHexAcc : Nat → List Char → Nat
  | acc, [] => acc
  | acc, c :: cs =>
    match hexDigitVal c with
    | some v => parseHexAcc (acc * 16 + v) cs
    | none => acc

/-- `parseInt(s, 16)` on a string that starts directly with its digits:
`none` models `NaN` (no leading hex digit). -/
def parseIntHexDigits : List Char → Option Nat
  | [] => none
  | c :: cs =>
    match hexDigitVal c with
    | some v => some (parseHexAcc v cs)
    | none => none

/-- JS `parseInt(s, 16)`: an optional `0x`/`0X` prefix is skipped, then the
maximal prefix of hex digits is read; `none` models `NaN`.  (Leading
whitespace and sign handling are omitted: they cannot occur in the
`'#'`-sanitized inputs this code parses.) -/
def parseIntHex (s : List Char) : Option Nat :=
  match s with
  | c1 :: c2 :: rest =>
    if c1 = '0' ∧ (c2 = 'x' ∨ c2 = 'X') then parseIntHexDigits rest
    else parseIntHexDigits s
  | _ => parseIntHexDigits s

/-- JS `String.prototype.replace("#", "")` removes only the first
occurrence of `'#'`. -/
def removeFirst (c : Char) : List Char → List Char
  | [] => []
  | x :: xs => if x = c then xs else x :: removeFirst c xs

/-- `toHex` inside `rgbToHex`: clamp the channel to [0, 255], round, render
base-16 and left-pad to two digits.  Channel values are naturals here
(canvas pixel data), for which `Math.round` is the identity; the lower
clamp `Math.max(0, _)` is vacuous on naturals. -/
def toHexByte (v : Nat) : List Char :=
  [hexDigitChar (min v 255 / 16), hexDigitChar (min v 255 % 16)]

/-- `rgbToHex`: `#` followed by three two-digit hex bytes. -/
def rgbToHex (r g b : Nat) : List Char :=
  '#' :: (toHexByte r ++ toHexByte g ++ toHexByte b)

/-- `hexToRgb`: strip the first `'#'`, accept only sanitized lengths 3 or 6
(3-digit forms have each digit doubled), parse as one hex integer and
extract the three bytes; any other length yields the fixed default
`(0, 200, 255)`.  `(parseIntHex _).getD 0` models that in JS
`NaN >> k & 255` is `0`. -/
def hexToRgb (hex : List Char) : Nat × Nat × Nat :=
  let sanitized := removeFirst '#' hex
  if sanitized.length = 3 ∨ sanitized.length = 6 then
    let expanded :=
      if sanitized.length = 3 then sanitized.flatMap (fun ch => [ch, ch]) else sanitized
    let intVal := (parseIntHex expanded).getD 0
    ((intVal >>> 16) &&& 255, (intVal >>> 8) &&& 255, intVal &&& 255)
  else
    (0, 200, 255)

lemma hexDigitVal_hexDigitChar (n : Nat) (h : n < 16) :
    hexDigitVal (hexDigitChar n) = some n := by
  revert h
  revert n
  decide

lemma hexDigitChar_ne_x (n : Nat) (h : n < 16) :
    hexDigitChar n ≠ 'x' ∧ hexDigitChar n ≠ 'X' := by
  revert h
  revert n
  decide

lemma parseIntHex_six_digits (v1 v2 v3 v4 v5 v6 : Nat)
    (h1 : v1 < 16) (h2 : v2 < 16) (h3 : v3 < 16) (h4 : v4 < 16)
    (h5 : v5 < 16) (h6 : v6 < 16) :
    parseIntHex [hexDigitChar v1, hexDigitChar v2, hexDigitChar v3,
      hexDigitChar v4, hexDigitChar v5, hexDigitChar v6] =
      some (((((v1 * 16 + v2) * 16 + v3) * 16 + v4) * 16 + v5) * 16 + v6) := by
  have e1 := hexDigitVal_hexDigitChar v1 h1
  have e2 := hexDigitVal_hexDigitChar v2 h2
  have e3 := hexDigitVal_hexDigitChar v3 h3
  have e4 := hexDigitVal_hexDigitChar v4 h4
  have e5 := hexDigitVal_hexDigitChar v5 h5
  have e6 := hexDigitVal_hexDigitChar v6 h6
  have nx := hexDigitChar_ne_x v2 h2
  simp [parseIntHex, parseIntHexDigits, parseHexAcc, e1, e2, e3, e4, e5, e6,
    nx.1, nx.2]

lemma and_255_eq_mod (x : Nat) : x &&& 255 = x % 256 := by
  have h := Nat.and_pow_two_sub_one_eq_mod x 8
  norm_num at h
  exact h

/-- C10: hex/RGB conversions round-trip on byte triples, and `hexToRgb` is
total: a string whose length after removing the (first) `'#'` is neither 3
nor 6 yields the fixed default `(0, 200, 255)`. -/
theorem hex_rgb_round_trip_and_default :
    (∀ r g b : Nat, r ≤ 255 → g ≤ 255 → b ≤ 255 →
      hexToRgb (rgbToHex r g b) = (r, g, b)) ∧
    (∀ hex : List Char, (removeFirst '#' hex).length ≠ 3 →
      (removeFirst '#' hex).length ≠ 6 → hexToRgb hex = (0, 200, 255)) := by
  constructor
  · intro r g b hr hg hb
    have hmr : min r 255 = r := by omega
    have hmg : min g 255 = g := by omega
    have hmb : min b 255 = b := by omega
    have key := parseIntHex_six_digits (r / 16) (r % 16) (g / 16) (g % 16)
      (b / 16) (b % 16) (by omega) (by omega) (by omega) (by omega)
      (by omega) (by omega)
    have hV : ((((r / 16 * 16 + r % 16) * 16 + g / 16) * 16 + g % 16) * 16
        + b / 16) * 16 + b % 16 = r * 65536 + g * 256 + b := by omega
    rw [hV] at key
    have sh16 : (r * 65536 + g * 256 + b) >>> 16 = r := by
      rw [Nat.shiftRight_eq_div_pow]
      omega
    have sh8 : (r * 65536 + g * 256 + b) >>> 8 = r * 256 + g := by
      rw [Nat.shiftRight_eq_div_pow]
      omega
    have a1 : r &&& 255 = r := by rw [and_255_eq_mod]; omega
    have a2 : (r * 256 + g) &&& 255 = g := by rw [and_255_eq_mod]; omega
    have a3 : (r * 65536 + g * 256 + b) &&& 255 = b := by
      rw [and_255_eq_mod]; omega
    have hsan : removeFirst '#' (rgbToHex r g b)
        = [hexDigitChar (r / 16), hexDigitChar (r % 16), hexDigitChar (g / 16),
           hexDigitChar (g % 16), hexDigitChar (b / 16), hexDigitChar (b % 16)] := by
      simp [rgbToHex, removeFirst, toHexByte, hmr, hmg, hmb]
    simp only [hexToRgb, hsan, List.length_cons, List.length_nil]
    norm_num
    rw [key]
    simp only [Option.getD_some, sh16, sh8, a1, a2, a3]
    exact ⟨trivial, trivial, trivial⟩
  · intro hex h3 h6
    have hcond : ¬ ((removeFirst '#' hex).length = 3
        ∨ (removeFirst '#' hex).length = 6) := by
      tauto
    simp only [hexToRgb]
    rw [if_neg hcond]

/-- Witness for C10 at concrete inputs. -/
theorem hex_rgb_round_trip_and_default_witness :
    hexToRgb (rgbToHex 18 52 255) = (18, 52, 255) ∧
    hexToRgb ['a', 'b'] = (0, 200, 255) :=
  ⟨hex_rgb_round_trip_and_default.1 18 52 255 (by decide) (by decide)
      (by decide),
    hex_rgb_round_trip_and_default.2 ['a', 'b'] (by decide) (by decide)⟩

/-- An RGBA pixel as surfaced by `getImageData` (each channel 0..255). -/
structure Pixel where
  r : Nat
  g : Nat
  b : Nat
  a : Nat
  deriving DecidableEq, Repr

def transparentPixel : Pixel := ⟨0, 0, 0, 0⟩

/-- The sketch-layer canvas raster: dimensions plus a row-major pixel list. -/
structure Raster where
  width : Nat
  height : Nat
  pixels : List Pixel
  deriving DecidableEq, Repr

/-- A freshly (re)sized or cleared canvas: every pixel transparent black. -/
def blankRaster (w h : Nat) : Raster :=
  ⟨w, h, List.replicate (w * h) transparentPixel⟩

/-- The flat RGBA layout of pixel data. -/
def pixelStream : List Pixel → List Nat
  | [] => []
  | p :: ps => p.r :: p.g :: p.b :: p.a :: pixelStream ps

/-- The flat RGBA stream of `getImageData(0, 0, width, height).data`. -/
def rasterBytes (r : Raster) : List Nat :=
  pixelStream r.pixels

/-- The alpha-scan loop of `canvasHasInk`:
`for (let i = 3; i < data.length; i += 4) if (data[i] > 0) return true`. -/
def canvasInkScan : List Nat → Bool
  | _r :: _g :: _b :: a :: rest => decide (0 < a) || canvasInkScan rest
  | _ => false

/-- `canvasHasInk`: the `getImageData` read may throw (cross-origin
restriction); the catch block reports `false` ("no ink"). -/
def canvasHasInk (readResult : Except String (List Nat)) : Bool :=
  match readResult with
  | Except.ok data => canvasInkScan data
  | Except.error _ => false

/-- `canvasHasInk` on a raster whose read succeeds; the `!width || !height`
guard returns `false` before any read is attempted. -/
def rasterHasInk (r : Raster) : Bool :=
  if r.width = 0 ∨ r.height = 0 then false
  else canvasHasInk (Except.ok (rasterBytes r))

inductive Tool
  | brush
  | eraser
  | eyedropper
  deriving DecidableEq, Repr

def MAX_UNDO_STATES : Nat := 15

def DEFAULT_BRUSH_COLOR : List Char := ['#', '0', '0', 'c', '8', 'f', 'f']

/-- The drawing-related React/ref state of the editing session. -/
structure Session where
  raster : Raster
  undoStack : List Raster
  tool : Tool
  brushColor : List Char
  brushOpacity : ℚ
  brushSize : ℚ
  drawingActive : Bool
  canUndo : Bool
  hasSketch : Bool
  imageLoaded : Bool
  deriving DecidableEq, Repr

/-- `clearCanvasLayer`: `clearRect` over the whole canvas (all pixels
transparent, dimensions kept), discard the undo stack, reset the flags. -/
def clearCanvasLayer (s : Session) : Session :=
  { s with raster := blankRaster s.raster.width s.raster.height,
           undoStack := [],
           canUndo := false,
           hasSketch := false }

/-- `saveCanvasState`: push a full-canvas snapshot (`toDataURL("image/png")`
is lossless, so a snapshot is modelled as the raster value), `shift` away
the oldest entry when the stack exceeds `MAX_UNDO_STATES`, and refresh
`canUndo`. -/
def saveCanvasState (s : Session) : Session :=
  let pushed := s.undoStack ++ [s.raster]
  let bounded := if MAX_UNDO_STATES < pushed.length then pushed.tail else pushed
  { s with undoStack := bounded, canUndo := decide (0 < bounded.length) }

/-- `restoreCanvasState`: a falsy snapshot clears the layer; otherwise the
snapshot is decoded and drawn over the cleared canvas (the canvas dimensions
equal the snapshot's within a session, so the redraw reproduces it exactly)
and the `img.onload` callback refreshes `hasSketch` from `canvasHasInk`. -/
def restoreCanvasState (snapshot : Option Raster) (s : Session) : Session :=
  match snapshot with
  | none => clearCanvasLayer s
  | some snap => { s with raster := snap, hasSketch := rasterHasInk snap }

/-- `handleUndoSketch`: with an empty stack, clear the layer; otherwise pop
the most recent snapshot, restore it, and refresh `canUndo`. -/
def handleUndoSketch (s : Session) : Session :=
  match s.undoStack.getLast? with
  | none => clearCanvasLayer s
  | some snap =>
    let rest := s.undoStack.dropLast
    let s1 := restoreCanvasState (some snap) { s with undoStack := rest }
    { s1 with canUndo := decide (0 < rest.length) }

def handleClearSketch (s : Session) : Session := clearCanvasLayer s

/-- `endStroke` (pointer-up/leave/cancel): if a stroke is active, finalize
it (blend mode back to source-over) and recompute the ink-presence flag. -/
def endStroke (s : Session) : Session :=
  if s.drawingActive then
    { s with drawingActive := false, hasSketch := rasterHasInk s.raster }
  else s

/-- The `getBoundingClientRect()` of the canvas element. -/
structure DomRect where
  left : ℚ
  top : ℚ
  width : ℚ
  height : ℚ
  deriving DecidableEq, Repr

/-- `getCanvasCoords`: scale the pointer's offset inside the canvas's
bounding rectangle by raster resolution / displayed (CSS) resolution. -/
def getCanvasCoords (canvasWidth canvasHeight : Nat) (rect : DomRect)
    (clientX clientY : ℚ) : ℚ × ℚ :=
  ((clientX - rect.left) * ((canvasWidth : ℚ) / rect.width),
   (clientY - rect.top) * ((canvasHeight : ℚ) / rect.height))

/-- The canvas-sizing effect: `canvas.width = base.clientWidth;
canvas.height = base.clientHeight` — the raster is sized to the *displayed*
(CSS) dimensions of the base image; its natural dimensions are not read. -/
def canvasSizing (_naturalWidth _naturalHeight clientWidth clientHeight : Nat) :
    Nat × Nat :=
  (clientWidth, clientHeight)

/-- The ink-presence scan as a session-level query: reading is side-effect
free, so the session is returned unchanged alongside the answer. -/
def canvasHasInkOp (readResult : Except String (List Nat)) (s : Session) :
    Bool × Session :=
  (canvasHasInk readResult, s)

/-- `ctx.getImageData(x, y, 1, 1).data`: a single-pixel read; coordinates
outside the canvas yield transparent black. -/
def pixelAt (r : Raster) (x y : Int) : Pixel :=
  if 0 ≤ x ∧ x < (r.width : Int) ∧ 0 ≤ y ∧ y < (r.height : Int) then
    r.pixels.getD (y.toNat * r.width + x.toNat) transparentPixel
  else transparentPixel

/-- `Number(v.toFixed(2))` for `v ∈ [0, 1]`: round to two decimals, ties
away from zero.  For the sampled values `a/255` a tie never occurs (the
distance of `100·a/255` from any half-integer is at least `1/102`, far
beyond double-precision error), so exact rational rounding is faithful. -/
def round2 (q : ℚ) : ℚ := ((⌊q * 100 + 1/2⌋ : ℤ) : ℚ) / 100

/-- The eyedropper's single-pixel read:
`ctx.getImageData(Math.floor(coords.x), Math.floor(coords.y), 1, 1).data`
with `coords = getCanvasCoords(event)`. -/
def sampledPixel (rect : DomRect) (clientX clientY : ℚ) (s : Session) : Pixel :=
  let coords := getCanvasCoords s.raster.width s.raster.height rect clientX clientY
  pixelAt s.raster ⌊coords.1⌋ ⌊coords.2⌋

/-- `handlePointerDown`.  The pointer event is given by its client
coordinates together with the canvas's bounding rectangle; `draw` abstracts
the canvas-2D rendering of the initial dot of a brush/eraser stroke (round
cap/join, configured width/color/opacity, source-over for the brush and
destination-out for the eraser). -/
def handlePointerDown (draw : Raster → Raster) (rect : DomRect)
    (clientX clientY : ℚ) (s : Session) : Session :=
  if s.imageLoaded = false then s
  else
    if s.tool = Tool.eyedropper then
      let pixel := sampledPixel rect clientX clientY s
      if 0 < pixel.a then
        let sampledOpacity := round2 ((pixel.a : ℚ) / 255)
        { s with brushColor := rgbToHex pixel.r pixel.g pixel.b,
                 brushOpacity := if 0 < sampledOpacity then sampledOpacity
                                 else s.brushOpacity,
                 tool := Tool.brush }
      else s
    else
      let s1 := saveCanvasState s
      { s1 with raster := draw s1.raster, drawingActive := true }

/-- One full brush/eraser stroke lifecycle: pointer-down saves a snapshot
of the pre-stroke raster and begins drawing, pointer-moves extend the path,
and pointer-up/leave/cancel finalizes it.  The rendering of the whole
stroke is abstracted as the raster transformation `f`. -/
def strokeOp (f : Raster → Raster) (s : Session) : Session :=
  let s1 := saveCanvasState s
  endStroke { s1 with raster := f s1.raster, drawingActive := true }

/-- `handleImageUpload` followed by the canvas-sizing effect: the sketch
layer and undo stack are discarded and the canvas is resized to the
displayed image (`clientWidth × clientHeight`), which resets its pixels;
the brush configuration survives an upload. -/
def uploadState (w h : Nat) (s : Session) : Session :=
  { clearCanvasLayer s with raster := blankRaster w h, imageLoaded := true }

/-- The initial React state: no image, empty stack, brush tool, default
color, opacity 0.6, size 18. -/
def initialSession : Session :=
  { raster := blankRaster 0 0, undoStack := [], tool := Tool.brush,
    brushColor := DEFAULT_BRUSH_COLOR, brushOpacity := 3/5, brushSize := 18,
    drawingActive := false, canUndo := false, hasSketch := false,
    imageLoaded := false }

def applyStrokes (fs : List (Raster → Raster)) (s : Session) : Session :=
  fs.foldl (fun t f => strokeOp f t) s

def undoN : Nat → Session → Session
  | 0, s => s
  | n + 1, s => handleUndoSketch (undoN n s)

/-- The session states reachable through the drawing engine's operations. -/
inductive Reachable : Session → Prop
  | init : Reachable initialSession
  | upload (w h : Nat) {s : Session} : Reachable s → Reachable (uploadState w h s)
  | pointerDown (draw : Raster → Raster) (rect : DomRect) (cx cy : ℚ)
      {s : Session} : Reachable s →
      Reachable (handlePointerDown draw rect cx cy s)
  | stroke (f : Raster → Raster) {s : Session} : Reachable s →
      Reachable (strokeOp f s)
  | strokeEnd {s : Session} : Reachable s → Reachable (endStroke s)
  | undo {s : Session} : Reachable s → Reachable (handleUndoSketch s)
  | clear {s : Session} : Reachable s → Reachable (handleClearSketch s)

lemma inkScan_replicate_transparent (n : Nat) :
    canvasInkScan (pixelStream (List.replicate n transparentPixel)) = false := by
  induction n with
  | zero => rfl
  | succ k ih =>
    simpa [List.replicate_succ, pixelStream, canvasInkScan, transparentPixel]
      using ih

lemma rasterHasInk_blank (w h : Nat) : rasterHasInk (blankRaster w h) = false := by
  unfold rasterHasInk
  split
  · rfl
  · simpa [canvasHasInk, rasterBytes, blankRaster]
      using inkScan_replicate_transparent (w * h)

lemma saveCanvasState_no_evict (s : Session)
    (h : s.undoStack.length + 1 ≤ MAX_UNDO_STATES) :
    saveCanvasState s =
      { s with undoStack := s.undoStack ++ [s.raster], canUndo := true } := by
  have hlt : ¬ MAX_UNDO_STATES < s.undoStack.length + 1 := by omega
  simp [saveCanvasState, hlt]

lemma handleUndoSketch_concat (s : Session) (ss : List Raster) (snap : Raster)
    (h : s.undoStack = ss ++ [snap]) :
    handleUndoSketch s =
      { s with raster := snap, undoStack := ss,
               canUndo := decide (0 < ss.length),
               hasSketch := rasterHasInk snap } := by
  unfold handleUndoSketch restoreCanvasState
  rw [h]
  simp [List.getLast?_concat, List.dropLast_concat]

lemma strokeOp_eq (f : Raster → Raster) (s : Session)
    (h : s.undoStack.length + 1 ≤ MAX_UNDO_STATES) :
    strokeOp f s =
      { s with raster := f s.raster,
               undoStack := s.undoStack ++ [s.raster],
               drawingActive := false,
               canUndo := true,
               hasSketch := rasterHasInk (f s.raster) } := by
  unfold strokeOp endStroke
  rw [saveCanvasState_no_evict s h]
  rfl

lemma undoN_applyStrokes (fs : List (Raster → Raster)) (s : Session)
    (hlen : s.undoStack.length + fs.length ≤ MAX_UNDO_STATES) (hne : fs ≠ []) :
    undoN fs.length (applyStrokes fs s) =
      { s with drawingActive := false,
               canUndo := decide (0 < s.undoStack.length),
               hasSketch := rasterHasInk s.raster } := by
  induction fs generalizing s with
  | nil => exact absurd rfl hne
  | cons f fs ih =>
    have hlen1 : s.undoStack.length + 1 ≤ MAX_UNDO_STATES := by
      simp only [List.length_cons] at hlen
      omega
    have hs' := strokeOp_eq f s hlen1
    by_cases hfs : fs = []
    · subst hfs
      show handleUndoSketch (strokeOp f s) =
        { s with drawingActive := false,
                 canUndo := decide (0 < s.undoStack.length),
                 hasSketch := rasterHasInk s.raster }
      rw [hs']
      rw [handleUndoSketch_concat _ s.undoStack s.raster rfl]
    · have hlen2 : (strokeOp f s).undoStack.length + fs.length
          ≤ MAX_UNDO_STATES := by
        rw [hs']
        simp only [List.length_cons, List.length_append, List.length_nil] at hlen ⊢
        omega
      have IH := ih (strokeOp f s) hlen2 hfs
      show handleUndoSketch (undoN fs.length (applyStrokes fs (strokeOp f s))) =
        { s with drawingActive := false,
                 canUndo := decide (0 < s.undoStack.length),
                 hasSketch := rasterHasInk s.raster }
      rw [IH, hs']
      rw [handleUndoSketch_concat _ s.undoStack s.raster rfl]

/-- C1: after an upload, for any sequence of at most `MAX_UNDO_STATES`
strokes (each of which snapshots the pre-stroke raster on pointer-down),
undoing once per stroke restores exactly the post-upload session (blank
raster, empty stack, flags reset), and one further undo — taken with the
stack now empty — clears the raster, i.e. coincides with
`handleClearSketch`. -/
theorem undo_restores_uploaded_state (s : Session) (w h : Nat)
    (fs : List (Raster → Raster)) (hN : fs.length ≤ MAX_UNDO_STATES)
    (hd : s.drawingActive = false) :
    undoN fs.length (applyStrokes fs (uploadState w h s)) = uploadState w h s ∧
    handleUndoSketch (undoN fs.length (applyStrokes fs (uploadState w h s)))
      = handleClearSketch
          (undoN fs.length (applyStrokes fs (uploadState w h s))) := by
  have hbase : undoN fs.length (applyStrokes fs (uploadState w h s))
      = uploadState w h s := by
    by_cases hfs : fs = []
    · subst hfs
      rfl
    · rw [undoN_applyStrokes fs (uploadState w h s)
        (by simpa [uploadState, clearCanvasLayer] using hN) hfs]
      simp [uploadState, clearCanvasLayer, rasterHasInk_blank, hd]
  refine ⟨hbase, ?_⟩
  rw [hbase]
  rfl

/-- Witness for C1: one identity stroke after an upload onto a 2×2 canvas. -/
theorem undo_restores_uploaded_state_witness :
    ([fun (r : Raster) => r] : List (Raster → Raster)).length ≤ MAX_UNDO_STATES
      ∧ initialSession.drawingActive = false
      ∧ (undoN 1 (applyStrokes [fun r => r] (uploadState 2 2 initialSession))
          = uploadState 2 2 initialSession) := by
  refine ⟨by decide, rfl, ?_⟩
  exact (undo_restores_uploaded_state initialSession 2 2 [fun r => r]
    (by decide) rfl).1

lemma saveCanvasState_undoStack (s : Session) :
    (saveCanvasState s).undoStack =
      if MAX_UNDO_STATES < s.undoStack.length + 1
      then (s.undoStack ++ [s.raster]).tail
      else s.undoStack ++ [s.raster] := by
  simp [saveCanvasState]

lemma saveCanvasState_length_le (s : Session)
    (h : s.undoStack.length ≤ MAX_UNDO_STATES) :
    (saveCanvasState s).undoStack.length ≤ MAX_UNDO_STATES := by
  rw [saveCanvasState_undoStack]
  split
  · simp only [List.length_tail, List.length_append, List.length_cons,
      List.length_nil]
    omega
  · simp only [List.length_append, List.length_cons, List.length_nil]
    omega

lemma saveCanvasState_evict (s : Session)
    (h : s.undoStack.length = MAX_UNDO_STATES) :
    (saveCanvasState s).undoStack = s.undoStack.tail ++ [s.raster] := by
  rw [saveCanvasState_undoStack]
  rw [if_pos (by omega)]
  cases hs : s.undoStack with
  | nil =>
    rw [hs] at h
    simp [MAX_UNDO_STATES] at h
  | cons a t => simp

lemma endStroke_undoStack (s : Session) :
    (endStroke s).undoStack = s.undoStack := by
  unfold endStroke
  split <;> rfl

lemma strokeOp_undoStack (f : Raster → Raster) (s : Session) :
    (strokeOp f s).undoStack = (saveCanvasState s).undoStack := by
  simp [strokeOp, endStroke_undoStack]

lemma handleUndoSketch_length_le (s : Session)
    (h : s.undoStack.length ≤ MAX_UNDO_STATES) :
    (handleUndoSketch s).undoStack.length ≤ MAX_UNDO_STATES := by
  unfold handleUndoSketch
  cases hg : s.undoStack.getLast? with
  | none => simp [clearCanvasLayer]
  | some snap =>
    simp only [restoreCanvasState, List.length_dropLast]
    omega

lemma handlePointerDown_length_le (draw : Raster → Raster) (rect : DomRect)
    (cx cy : ℚ) (s : Session) (h : s.undoStack.length ≤ MAX_UNDO_STATES) :
    (handlePointerDown draw rect cx cy s).undoStack.length
      ≤ MAX_UNDO_STATES := by
  unfold handlePointerDown
  split_ifs with h1 h2
  · exact h
  · by_cases hp : 0 < (sampledPixel rect cx cy s).a <;> simpa [hp] using h
  · exact saveCanvasState_length_le s h

lemma reachable_stack_le (s : Session) (h : Reachable s) :
    s.undoStack.length ≤ MAX_UNDO_STATES := by
  induction h with
  | init => simp [initialSession, MAX_UNDO_STATES]
  | upload w h hs ih => simp [uploadState, clearCanvasLayer]
  | pointerDown draw rect cx cy hs ih =>
    exact handlePointerDown_length_le draw rect cx cy _ ih
  | stroke f hs ih =>
    rw [strokeOp_undoStack]
    exact saveCanvasState_length_le _ ih
  | strokeEnd hs ih =>
    rw [endStroke_undoStack]
    exact ih
  | undo hs ih => exact handleUndoSketch_length_le _ ih
  | clear hs ih => simp [handleClearSketch, clearCanvasLayer]

/-- C2: in every reachable session the undo stack holds at most
`MAX_UNDO_STATES` snapshots; a push onto a full stack evicts the oldest
entry (FIFO) while keeping the newest at the top; and save, undo and clear
all preserve the bound. -/
theorem undo_stack_bounded (s : Session) (h : Reachable s) :
    s.undoStack.length ≤ MAX_UNDO_STATES ∧
    (s.undoStack.length = MAX_UNDO_STATES →
      (saveCanvasState s).undoStack = s.undoStack.tail ++ [s.raster]) ∧
    (saveCanvasState s).undoStack.length ≤ MAX_UNDO_STATES ∧
    (handleUndoSketch s).undoStack.length ≤ MAX_UNDO_STATES ∧
    (handleClearSketch s).undoStack.length ≤ MAX_UNDO_STATES := by
  have hb := reachable_stack_le s h
  exact ⟨hb, saveCanvasState_evict s, saveCanvasState_length_le s hb,
    handleUndoSketch_length_le s hb, by simp [handleClearSketch, clearCanvasLayer]⟩

/-- Witness for C2 at the (reachable) initial session. -/
theorem undo_stack_bounded_witness :
    Reachable initialSession ∧
    (initialSession.undoStack.length ≤ MAX_UNDO_STATES ∧
      (initialSession.undoStack.length = MAX_UNDO_STATES →
        (saveCanvasState initialSession).undoStack =
          initialSession.undoStack.tail ++ [initialSession.raster]) ∧
      (saveCanvasState initialSession).undoStack.length ≤ MAX_UNDO_STATES ∧
      (handleUndoSketch initialSession).undoStack.length ≤ MAX_UNDO_STATES ∧
      (handleClearSketch initialSession).undoStack.length ≤ MAX_UNDO_STATES) :=
  ⟨Reachable.init, undo_stack_bounded initialSession Reachable.init⟩

/-- C8: a raster read failure during the ink-presence scan is caught and
treated as "no ink": the scan answers `false`, no exception escapes (the
result is an ordinary boolean), and the session is returned unchanged. -/
theorem ink_scan_failure_no_ink (err : String) (s : Session) :
    canvasHasInkOp (Except.error err) s = (false, s) := rfl

lemma round2_one_255 : round2 ((1 : ℚ) / 255) = 0 := by
  unfold round2
  norm_num

lemma round2_sample_pos (a : Nat) (ha : 2 ≤ a) :
    0 < round2 ((a : ℚ) / 255) := by
  unfold round2
  have ha' : (2 : ℚ) ≤ (a : ℚ) := by exact_mod_cast ha
  have h2 : (1 : ℚ) / 2 ≤ (a : ℚ) * 100 / 255 := by
    rw [div_le_div_iff₀ (by norm_num) (by norm_num)]
    nlinarith
  have hfl : (1 : ℤ) ≤ ⌊(a : ℚ) / 255 * 100 + 1 / 2⌋ := by
    rw [Int.le_floor]
    have hq : (a : ℚ) / 255 * 100 = (a : ℚ) * 100 / 255 := by ring
    rw [hq]
    push_cast
    linarith
  have hc : (1 : ℚ) ≤ ((⌊(a : ℚ) / 255 * 100 + 1 / 2⌋ : ℤ) : ℚ) := by
    exact_mod_cast hfl
  exact div_pos (by linarith) (by norm_num)

/-- A 1×1 editing session holding the single pixel `p`, with the eyedropper
tool active: the fixture for the eyedropper theorems. -/
def eyedropperSession (p : Pixel) : Session :=
  { initialSession with
    raster := ⟨1, 1, [p]⟩,
    tool := Tool.eyedropper, imageLoaded := true }

lemma sampledPixel_eyedropperSession (p : Pixel) :
    sampledPixel ⟨0, 0, 1, 1⟩ 0 0 (eyedropperSession p) = p := by
  norm_num [sampledPixel, getCanvasCoords, eyedropperSession, pixelAt,
    initialSession]

/-- When the eyedropper hits a pixel with positive alpha, pointer-down
updates exactly the brush color, opacity (kept when the sample rounds to
zero) and tool. -/
lemma handlePointerDown_eyedropper (draw : Raster → Raster) (rect : DomRect)
    (cx cy : ℚ) (s : Session) (himg : s.imageLoaded = true)
    (htool : s.tool = Tool.eyedropper)
    (ha : 0 < (sampledPixel rect cx cy s).a) :
    handlePointerDown draw rect cx cy s =
      { s with
        tool := Tool.brush,
        brushColor := rgbToHex (sampledPixel rect cx cy s).r
          (sampledPixel rect cx cy s).g (sampledPixel rect cx cy s).b,
        brushOpacity :=
          if 0 < round2 (((sampledPixel rect cx cy s).a : ℚ) / 255)
          then round2 (((sampledPixel rect cx cy s).a : ℚ) / 255)
          else s.brushOpacity } := by
  simp [handlePointerDown, himg, htool, ha]

/-- C6: an eyedropper pointer-down on a fully transparent pixel is a
complete no-op: the session (tool, brush color and opacity, raster, undo
stack, flags) is unchanged and in particular no snapshot is pushed. -/
theorem eyedropper_transparent_noop (draw : Raster → Raster) (rect : DomRect)
    (cx cy : ℚ) (s : Session) (htool : s.tool = Tool.eyedropper)
    (ha : (sampledPixel rect cx cy s).a = 0) :
    handlePointerDown draw rect cx cy s = s := by
  by_cases himg : s.imageLoaded = false
  · simp [handlePointerDown, himg]
  · simp [handlePointerDown, himg, htool, ha]

/-- Witness for C6: a transparent 1×1 sketch layer. -/
theorem eyedropper_transparent_noop_witness :
    (eyedropperSession transparentPixel).tool = Tool.eyedropper ∧
    (sampledPixel ⟨0, 0, 1, 1⟩ 0 0 (eyedropperSession transparentPixel)).a = 0 ∧
    handlePointerDown id ⟨0, 0, 1, 1⟩ 0 0 (eyedropperSession transparentPixel)
      = eyedropperSession transparentPixel := by
  have hs := sampledPixel_eyedropperSession transparentPixel
  refine ⟨rfl, by rw [hs]; rfl, ?_⟩
  exact eyedropper_transparent_noop id ⟨0, 0, 1, 1⟩ 0 0 _ rfl
    (by rw [hs]; rfl)

/-- C5 counterexample: on a pixel with alpha 1, `(1/255).toFixed(2)` is 0
and the code keeps the previous brush opacity (here 0.6) rather than
setting it to `round(a/255, 2) = 0` as the claim states. -/
theorem eyedropper_opacity_counterexample :
    round2 ((1 : ℚ) / 255) = 0 ∧
    (handlePointerDown id ⟨0, 0, 1, 1⟩ 0 0
        (eyedropperSession ⟨10, 20, 30, 1⟩)).brushOpacity = 3 / 5 ∧
    (handlePointerDown id ⟨0, 0, 1, 1⟩ 0 0
        (eyedropperSession ⟨10, 20, 30, 1⟩)).brushOpacity
      ≠ round2 ((1 : ℚ) / 255) := by
  have hs := sampledPixel_eyedropperSession ⟨10, 20, 30, 1⟩
  have hop : (handlePointerDown id ⟨0, 0, 1, 1⟩ 0 0
      (eyedropperSession ⟨10, 20, 30, 1⟩)).brushOpacity = 3 / 5 := by
    rw [handlePointerDown_eyedropper id ⟨0, 0, 1, 1⟩ 0 0
      (eyedropperSession ⟨10, 20, 30, 1⟩) rfl rfl (by rw [hs]; decide)]
    rw [show ((eyedropperSession ⟨10, 20, 30, 1⟩).brushOpacity) = 3 / 5
      from rfl]
    rw [hs, show ((Pixel.mk 10 20 30 1).a : ℚ) = 1 from by norm_num,
      round2_one_255]
    norm_num
  refine ⟨round2_one_255, hop, ?_⟩
  rw [hop, round2_one_255]
  norm_num

/-- C5 (amended): an eyedropper pointer-down on a pixel with alpha > 0 sets
the brush color to the hex encoding of (r, g, b), switches the tool to
brush, and sets the opacity to `round(a/255, 2)` whenever that rounded
value is positive (i.e. alpha ≥ 2); when it rounds to 0 (alpha = 1) the
previous opacity is kept.  The raster and undo stack are untouched. -/
theorem eyedropper_sample_sets_brush (draw : Raster → Raster) (rect : DomRect)
    (cx cy : ℚ) (s : Session) (himg : s.imageLoaded = true)
    (htool : s.tool = Tool.eyedropper)
    (ha : 0 < (sampledPixel rect cx cy s).a) :
    (handlePointerDown draw rect cx cy s).tool = Tool.brush ∧
    (handlePointerDown draw rect cx cy s).brushColor =
      rgbToHex (sampledPixel rect cx cy s).r (sampledPixel rect cx cy s).g
        (sampledPixel rect cx cy s).b ∧
    (handlePointerDown draw rect cx cy s).brushOpacity =
      (if 2 ≤ (sampledPixel rect cx cy s).a
       then round2 (((sampledPixel rect cx cy s).a : ℚ) / 255)
       else s.brushOpacity) ∧
    (handlePointerDown draw rect cx cy s).raster = s.raster ∧
    (handlePointerDown draw rect cx cy s).undoStack = s.undoStack := by
  rw [handlePointerDown_eyedropper draw rect cx cy s himg htool ha]
  refine ⟨rfl, rfl, ?_, rfl, rfl⟩
  show (if 0 < round2 (((sampledPixel rect cx cy s).a : ℚ) / 255)
        then round2 (((sampledPixel rect cx cy s).a : ℚ) / 255)
        else s.brushOpacity) = _
  by_cases h2a : 2 ≤ (sampledPixel rect cx cy s).a
  · rw [if_pos (round2_sample_pos _ h2a), if_pos h2a]
  · have h1a : (sampledPixel rect cx cy s).a = 1 := by omega
    rw [if_neg h2a, h1a, Nat.cast_one, round2_one_255]
    simp

/-- Witness for C5 (amended): sampling a pixel with alpha 128 switches the
tool and sets the new color and opacity. -/
theorem eyedropper_sample_sets_brush_witness :
    (eyedropperSession ⟨10, 20, 30, 128⟩).imageLoaded = true ∧
    (eyedropperSession ⟨10, 20, 30, 128⟩).tool = Tool.eyedropper ∧
    0 < (sampledPixel ⟨0, 0, 1, 1⟩ 0 0 (eyedropperSession ⟨10, 20, 30, 128⟩)).a ∧
    ((handlePointerDown id ⟨0, 0, 1, 1⟩ 0 0
        (eyedropperSession ⟨10, 20, 30, 128⟩)).tool = Tool.brush ∧
     (handlePointerDown id ⟨0, 0, 1, 1⟩ 0 0
        (eyedropperSession ⟨10, 20, 30, 128⟩)).brushColor =
       rgbToHex (sampledPixel ⟨0, 0, 1, 1⟩ 0 0 (eyedropperSession ⟨10, 20, 30, 128⟩)).r
         (sampledPixel ⟨0, 0, 1, 1⟩ 0 0 (eyedropperSession ⟨10, 20, 30, 128⟩)).g
         (sampledPixel ⟨0, 0, 1, 1⟩ 0 0 (eyedropperSession ⟨10, 20, 30, 128⟩)).b ∧
     (handlePointerDown id ⟨0, 0, 1, 1⟩ 0 0
        (eyedropperSession ⟨10, 20, 30, 128⟩)).brushOpacity =
       (if 2 ≤ (sampledPixel ⟨0, 0, 1, 1⟩ 0 0 (eyedropperSession ⟨10, 20, 30, 128⟩)).a
        then round2 (((sampledPixel ⟨0, 0, 1, 1⟩ 0 0 (eyedropperSession ⟨10, 20, 30, 128⟩)).a : ℚ) / 255)
        else (eyedropperSession ⟨10, 20, 30, 128⟩).brushOpacity) ∧
     (handlePointerDown id ⟨0, 0, 1, 1⟩ 0 0
        (eyedropperSession ⟨10, 20, 30, 128⟩)).raster
       = (eyedropperSession ⟨10, 20, 30, 128⟩).raster ∧
     (handlePointerDown id ⟨0, 0, 1, 1⟩ 0 0
        (eyedropperSession ⟨10, 20, 30, 128⟩)).undoStack
       = (eyedropperSession ⟨10, 20, 30, 128⟩).undoStack) := by
  have hs := sampledPixel_eyedropperSession ⟨10, 20, 30, 128⟩
  refine ⟨rfl, rfl, by rw [hs]; decide, ?_⟩
  exact eyedropper_sample_sets_brush id ⟨0, 0, 1, 1⟩ 0 0 _ rfl rfl
    (by rw [hs]; decide)

/-- C4 counterexample: with an 800×600-natural image displayed at 400×300
CSS pixels, the sizing effect makes the raster 400×300 (`clientWidth` ×
`clientHeight`, not the natural resolution), so a pointer-down at CSS
(100,100) maps to raster (100,100) — not to (200,200) as the claim's
scenario asserts. -/
theorem pointer_mapping_scenario_counterexample :
    canvasSizing 800 600 400 300 = (400, 300) ∧
    getCanvasCoords (canvasSizing 800 600 400 300).1
      (canvasSizing 800 600 400 300).2 ⟨0, 0, 400, 300⟩ 100 100
      = (100, 100) ∧
    getCanvasCoords (canvasSizing 800 600 400 300).1
      (canvasSizing 800 600 400 300).2 ⟨0, 0, 400, 300⟩ 100 100
      ≠ (200, 200) := by
  refine ⟨rfl, ?_, ?_⟩
  · norm_num [getCanvasCoords, canvasSizing, Prod.ext_iff]
  · norm_num [getCanvasCoords, canvasSizing, Prod.ext_iff]

/-- C4 (amended): pointer coordinates are scaled by the ratio of raster
resolution to displayed (CSS) resolution; since the sizing effect sets the
raster to the displayed `clientWidth × clientHeight` (ignoring the natural
resolution), that ratio is 1 in both axes whenever the canvas is displayed
at those dimensions, and a pointer event maps to its plain CSS offset —
in the 800×600-natural / 400×300-CSS scenario, CSS (100,100) maps to
raster (100,100). -/
theorem pointer_mapping_display_scale (nw nh cw ch : Nat) (rect : DomRect)
    (cx cy : ℚ)
    (hw : rect.width = ((canvasSizing nw nh cw ch).1 : ℚ))
    (hh : rect.height = ((canvasSizing nw nh cw ch).2 : ℚ))
    (hw0 : rect.width ≠ 0) (hh0 : rect.height ≠ 0) :
    getCanvasCoords (canvasSizing nw nh cw ch).1 (canvasSizing nw nh cw ch).2
      rect cx cy = (cx - rect.left, cy - rect.top) := by
  have hw' : rect.width = (cw : ℚ) := by simpa [canvasSizing] using hw
  have hh' : rect.height = (ch : ℚ) := by simpa [canvasSizing] using hh
  have hcw : ((cw : ℚ)) ≠ 0 := by rw [hw'] at hw0; exact hw0
  have hch : ((ch : ℚ)) ≠ 0 := by rw [hh'] at hh0; exact hh0
  unfold getCanvasCoords canvasSizing
  rw [hw', hh']
  rw [div_self hcw, div_self hch, mul_one, mul_one]

/-- Witness for C4 (amended), at the spec's own scenario. -/
theorem pointer_mapping_display_scale_witness :
    ((⟨0, 0, 400, 300⟩ : DomRect).width
      = ((canvasSizing 800 600 400 300).1 : ℚ)) ∧
    ((⟨0, 0, 400, 300⟩ : DomRect).height
      = ((canvasSizing 800 600 400 300).2 : ℚ)) ∧
    ((⟨0, 0, 400, 300⟩ : DomRect).width ≠ 0) ∧
    ((⟨0, 0, 400, 300⟩ : DomRect).height ≠ 0) ∧
    getCanvasCoords (canvasSizing 800 600 400 300).1
        (canvasSizing 800 600 400 300).2 ⟨0, 0, 400, 300⟩ 100 100
      = (100 - (⟨0, 0, 400, 300⟩ : DomRect).left,
         100 - (⟨0, 0, 400, 300⟩ : DomRect).top) :=
  ⟨by norm_num [canvasSizing], by norm_num [canvasSizing],
   by norm_num, by norm_num,
   pointer_mapping_display_scale 800 600 400 300 ⟨0, 0, 400, 300⟩ 100 100
     (by norm_num [canvasSizing]) (by norm_num [canvasSizing])
     (by norm_num) (by norm_num)⟩

def blackPixel : Pixel := ⟨0, 0, 0, 255⟩

def whitePixel : Pixel := ⟨255, 255, 255, 255⟩

/-- Source-over compositing of a (non-premultiplied) sketch pixel onto the
mask canvas right after `fillStyle = "black"; fillRect(...)`: the
destination is (0,0,0,255), so the composited alpha is
`αs + 255·(255−αs)/255 = 255` for *every* source pixel — exactly, with no
rounding involved; the color channels are `src·αs/255`, rounded to
nearest. -/
def compositeOnBlack (src : Pixel) : Pixel :=
  ⟨(src.r * src.a + 127) / 255, (src.g * src.a + 127) / 255,
   (src.b * src.a + 127) / 255, 255⟩

/-- The alpha-threshold loop of the inpainting mask builder: a pixel whose
(composited) alpha exceeds 0 becomes opaque white, any other pixel opaque
black. -/
def maskThreshold (p : Pixel) : Pixel :=
  if 0 < p.a then whitePixel else blackPixel

/-- The inpainting-mask construction of `handleGenerateImage`: fill the
mask canvas opaque black, `drawImage` the sketch layer (rescaled to the
base image's natural resolution) over it with source-over, read the pixel
data back and threshold each pixel on its alpha.  `sketch` is the rescaled
sketch layer's pixel list. -/
def buildMask (sketch : List Pixel) : List Pixel :=
  (sketch.map compositeOnBlack).map maskThreshold

/-- C3 (code-defect evidence): because the sketch is composited onto an
*opaque black* background before its alpha is tested, every composited
pixel has alpha 255 and the threshold always chooses white: the generated
mask is uniformly opaque white for every sketch layer.  In particular an
inkless sketch layer yields an all-white mask, not the all-black mask the
specification describes, and the loop's black branch is dead code. -/
theorem mask_uniformly_white :
    (∀ sketch : List Pixel,
      buildMask sketch = List.replicate sketch.length whitePixel) ∧
    buildMask (List.replicate 4 transparentPixel)
      ≠ List.replicate 4 blackPixel := by
  constructor
  · intro sketch
    induction sketch with
    | nil => rfl
    | cons p ps ih =>
      have hw : maskThreshold (compositeOnBlack p) = whitePixel := by
        simp [maskThreshold, compositeOnBlack]
      simp only [buildMask] at ih
      simp only [buildMask, List.map_cons, List.length_cons,
        List.replicate_succ]
      rw [hw, ih]
  · decide

def MAX_PREVIEW_DIMENSION : Nat := 1024

def PREVIEW_QUALITY : ℚ := 7 / 10

/-- createPreview's scale factor:
`Math.min(1, MAX_PREVIEW_DIMENSION / Math.max(width, height))`. -/
def previewScale (w h : Nat) : ℚ :=
  min 1 ((MAX_PREVIEW_DIMENSION : ℚ) / ((max w h : Nat) : ℚ))

/-- The output canvas dimensions `canvas.width = width * scale;
canvas.height = height * scale` — the IDL unsigned-long conversion
truncates the (nonnegative) assigned value. -/
def previewDims (w h : Nat) : Nat × Nat :=
  (⌊(w : ℚ) * previewScale w h⌋₊, ⌊(h : ℚ) * previewScale w h⌋₊)

/-- `createPreview`: decode the data URL (`none` models a decode failure,
i.e. the `img.onerror` path); on success, draw into a canvas of the
downscaled dimensions and re-encode as JPEG at quality 0.7; on failure,
resolve with the original input.  `decode` and `encodeJpeg` abstract the
browser's image codecs. -/
def createPreview (decode : String → Option (Nat × Nat))
    (encodeJpeg : Nat → Nat → ℚ → String) (dataUrl : String) : String :=
  match decode dataUrl with
  | some wh =>
    encodeJpeg (previewDims wh.1 wh.2).1 (previewDims wh.1 wh.2).2
      PREVIEW_QUALITY
  | none => dataUrl

lemma previewScale_small (w h : Nat) (hw : 0 < w)
    (hm : max w h ≤ MAX_PREVIEW_DIMENSION) : previewScale w h = 1 := by
  unfold previewScale
  have hm0 : (0 : ℚ) < ((max w h : Nat) : ℚ) := by
    exact_mod_cast lt_of_lt_of_le hw (le_max_left w h)
  have h1 : (1 : ℚ) ≤ (MAX_PREVIEW_DIMENSION : ℚ) / ((max w h : Nat) : ℚ) := by
    rw [le_div_iff₀ hm0, one_mul]
    exact_mod_cast hm
  exact min_eq_left h1

lemma previewDims_small (w h : Nat) (hw : 0 < w) (_hh : 0 < h)
    (hm : max w h ≤ MAX_PREVIEW_DIMENSION) : previewDims w h = (w, h) := by
  unfold previewDims
  rw [previewScale_small w h hw hm]
  simp

lemma previewScale_large (w h : Nat)
    (hm : MAX_PREVIEW_DIMENSION < max w h) :
    previewScale w h = (MAX_PREVIEW_DIMENSION : ℚ) / ((max w h : Nat) : ℚ) := by
  unfold previewScale
  apply min_eq_right
  have hm0 : (0 : ℚ) < ((max w h : Nat) : ℚ) := by
    exact_mod_cast lt_of_le_of_lt (Nat.zero_le _) hm
  rw [div_le_one hm0]
  exact_mod_cast le_of_lt hm

lemma previewDims_large (w h : Nat)
    (hm : MAX_PREVIEW_DIMENSION < max w h) :
    previewDims w h = (w * MAX_PREVIEW_DIMENSION / max w h,
      h * MAX_PREVIEW_DIMENSION / max w h) := by
  unfold previewDims
  rw [previewScale_large w h hm]
  have hx : ∀ x : Nat,
      ⌊(x : ℚ) * ((MAX_PREVIEW_DIMENSION : ℚ) / ((max w h : Nat) : ℚ))⌋₊
        = x * MAX_PREVIEW_DIMENSION / max w h := by
    intro x
    rw [mul_div_assoc']
    rw [show ((x : ℚ) * (MAX_PREVIEW_DIMENSION : ℚ))
        = ((x * MAX_PREVIEW_DIMENSION : Nat) : ℚ) from by push_cast; ring]
    rw [Nat.floor_div_nat, Nat.floor_natCast]
  rw [hx w, hx h]

/-- C7: when the larger input dimension exceeds 1024 the preview is scaled
proportionally (with truncation) so that the larger output dimension is
exactly 1024; otherwise the dimensions pass through unchanged.  In
particular 2000×1000 yields 1024×512 and 500×300 passes through. -/
theorem preview_downscale_spec (w h : Nat) (hw : 0 < w) (hh : 0 < h) :
    (MAX_PREVIEW_DIMENSION < max w h →
      ((previewDims w h).1 = w * MAX_PREVIEW_DIMENSION / max w h ∧
       (previewDims w h).2 = h * MAX_PREVIEW_DIMENSION / max w h ∧
       max (previewDims w h).1 (previewDims w h).2 = MAX_PREVIEW_DIMENSION)) ∧
    (max w h ≤ MAX_PREVIEW_DIMENSION → previewDims w h = (w, h)) ∧
    previewDims 2000 1000 = (1024, 512) ∧
    previewDims 500 300 = (500, 300) := by
  refine ⟨?_, fun hm => previewDims_small w h hw hh hm, ?_, ?_⟩
  · intro hm
    rw [previewDims_large w h hm]
    refine ⟨rfl, rfl, ?_⟩
    rcases Nat.le_total w h with hle | hle
    · have hmax : max w h = h := max_eq_right hle
      rw [hmax]
      have h1 : h * MAX_PREVIEW_DIMENSION / h = MAX_PREVIEW_DIMENSION :=
        Nat.mul_div_cancel_left MAX_PREVIEW_DIMENSION hh
      have h2 : w * MAX_PREVIEW_DIMENSION / h ≤ MAX_PREVIEW_DIMENSION := by
        calc w * MAX_PREVIEW_DIMENSION / h
            ≤ h * MAX_PREVIEW_DIMENSION / h :=
              Nat.div_le_div_right (Nat.mul_le_mul_right _ hle)
          _ = MAX_PREVIEW_DIMENSION := h1
      rw [h1]
      exact max_eq_right h2
    · have hmax : max w h = w := max_eq_left hle
      rw [hmax]
      have h1 : w * MAX_PREVIEW_DIMENSION / w = MAX_PREVIEW_DIMENSION :=
        Nat.mul_div_cancel_left MAX_PREVIEW_DIMENSION hw
      have h2 : h * MAX_PREVIEW_DIMENSION / w ≤ MAX_PREVIEW_DIMENSION := by
        calc h * MAX_PREVIEW_DIMENSION / w
            ≤ w * MAX_PREVIEW_DIMENSION / w :=
              Nat.div_le_div_right (Nat.mul_le_mul_right _ hle)
          _ = MAX_PREVIEW_DIMENSION := h1
      rw [h1]
      exact max_eq_left h2
  · rw [previewDims_large 2000 1000 (by decide)]
    decide
  · exact previewDims_small 500 300 (by decide) (by decide) (by decide)

/-- Witness for C7 at the spec's concrete inputs. -/
theorem preview_downscale_spec_witness :
    0 < 2000 ∧ 0 < 1000 ∧
    (MAX_PREVIEW_DIMENSION < max 2000 1000 →
      ((previewDims 2000 1000).1
          = 2000 * MAX_PREVIEW_DIMENSION / max 2000 1000 ∧
       (previewDims 2000 1000).2
          = 1000 * MAX_PREVIEW_DIMENSION / max 2000 1000 ∧
       max (previewDims 2000 1000).1 (previewDims 2000 1000).2
          = MAX_PREVIEW_DIMENSION)) ∧
    previewDims 2000 1000 = (1024, 512) ∧
    previewDims 500 300 = (500, 300) := by
  have key := preview_downscale_spec 2000 1000 (by decide) (by decide)
  exact ⟨by decide, by decide, key.1, key.2.2.1, key.2.2.2⟩

/-- C9: when the preview downscaler's image decode fails, `createPreview`
resolves with the original encoded input, byte for byte. -/
theorem preview_decode_failure_returns_input
    (decode : String → Option (Nat × Nat))
    (encodeJpeg : Nat → Nat → ℚ → String) (dataUrl : String)
    (hfail : decode dataUrl = none) :
    createPreview decode encodeJpeg dataUrl = dataUrl := by
  simp [createPreview, hfail]

/-- Witness for C9: a decoder that always fails. -/
theorem preview_decode_failure_returns_input_witness :
    (fun (_ : String) => (none : Option (Nat × Nat))) "data-url" = none ∧
    createPreview (fun _ => none) (fun _ _ _ => "resized") "data-url"
      = "data-url" :=
  ⟨rfl, preview_decode_failure_returns_input (fun _ => none)
    (fun _ _ _ => "resized") "data-url" rfl⟩

end PlayfulEnv
